import Mathlib

/-!
Shallow embedding of the realtime SSE layer of `collab-todo`
(`todosStream` in the backend), together with proofs of the spec's
claims about it.

The embedding models:
* the establishment path of `todosStream` (credential extraction,
  verification, CORS gating, stream headers, 401 error responses);
* the per-session callback state machine (the `started` flag, the
  debounce timer, the keep-alive interval, the two Firestore watch
  subscriptions, the transport-close teardown handler) as explicit
  state passing over a `SessionState`, with the JavaScript event loop
  modelled as a list of timestamped dispatch events.

Machine timestamps are `Nat` (unix milliseconds). The Node timer
handles (`debounce`, `keepAlive`) are modelled by their observable
content: `debounce : Option Nat` is the pending one-shot timer's due
time (`none` when no live timer is pending — `clearTimeout` on an
already-fired or already-cleared handle is a no-op in Node, so the
stale non-null JS handle is observationally equivalent to `none`), and
`keepAlive : Bool` records whether the interval is live.
-/

namespace CollabTodo

/-- Outbound protocol frames written to the SSE transport:
`event: ready`, `event: todos_changed` (with its `at` timestamp), and
the anonymous keep-alive comment frame (with its timestamp). -/
inductive Frame where
  | ready : Frame
  | todosChanged (at_ : Nat) : Frame
  | keepAliveComment (at_ : Nat) : Frame
  deriving DecidableEq, Repr

/-- The per-connection state of one `todosStream` session after the
stream has been established (lines 40–98 of the handler).
`out` is the ordered list of frames written to the transport so far. -/
structure SessionState where
  started : Bool
  debounce : Option Nat
  keepAlive : Bool
  ownedSub : Bool
  assignedSub : Bool
  resOpen : Bool
  out : List Frame
  deriving DecidableEq, Repr

/-- The function `send(event, data)`: two `res.write` calls appending one frame. -/
def send (f : Frame) (s : SessionState) : SessionState :=
  { s with out := s.out ++ [f] }

/-- The function `sendComment()`: writes the keep-alive comment frame. -/
def sendComment (now : Nat) (s : SessionState) : SessionState :=
  { s with out := s.out ++ [Frame.keepAliveComment now] }

/-- The function `scheduleEmit()`: gated on `started`; clears any pending debounce
timer and arms a fresh one-shot timer for 250ms from now. -/
def scheduleEmit (now : Nat) (s : SessionState) : SessionState :=
  if !s.started then s
  else { s with debounce := some (now + 250) }

/-- The body of the `setTimeout` callback armed by `scheduleEmit`:
`send("todos_changed", { at: Date.now() })`. Note that the source
callback performs no `started` check of its own; the timer becoming
non-pending once it fires is event-loop behaviour, recorded here by
setting `debounce := none`. -/
def debounceCallback (now : Nat) (s : SessionState) : SessionState :=
  send (Frame.todosChanged now) { s with debounce := none }

/-- The `onSnapshot` delivery handler (identical for the next-value and
the error callback of both watches):
`() => { if (!started) return; scheduleEmit(); }`. -/
def watchHandler (now : Nat) (s : SessionState) : SessionState :=
  if !s.started then s
  else scheduleEmit now s

/-- The body of the `setInterval` keep-alive callback:
`() => { if (!started) return; sendComment(); }`. -/
def keepAliveCallback (now : Nat) (s : SessionState) : SessionState :=
  if !s.started then s
  else sendComment now s

/-- The `req.on("close")` teardown handler: sets `started = false`,
clears the debounce timer and the keep-alive interval, cancels both
Firestore subscriptions, and ends the response. (Firestore unsubscribe
functions and `res.end()` are no-ops when repeated, so cancellation is
modelled as setting the corresponding flag to `false`.) -/
def teardown (s : SessionState) : SessionState :=
  { s with
    started := false
    debounce := none
    keepAlive := false
    ownedSub := false
    assignedSub := false
    resOpen := false }

/-- Dispatchable event-loop events for one session. -/
inductive Ev where
  | watchOwned : Ev
  | watchOwnedErr : Ev
  | watchAssigned : Ev
  | watchAssignedErr : Ev
  | debounceFire : Ev
  | keepAliveTick : Ev
  | transportClose : Ev
  deriving DecidableEq, Repr

/-- Watch-delivery events (success or error, either subscription). -/
def Ev.isWatch : Ev → Bool
  | Ev.watchOwned => true
  | Ev.watchOwnedErr => true
  | Ev.watchAssigned => true
  | Ev.watchAssignedErr => true
  | _ => false

/-- One event-loop dispatch at time `now`. A watch delivery reaches its
handler only while the subscription is live; the one-shot debounce
callback runs only when the timer is pending and due; the keep-alive
callback runs only while the interval is live; `transportClose` runs
the registered close handler. -/
def step (now : Nat) (e : Ev) (s : SessionState) : SessionState :=
  match e with
  | Ev.watchOwned => if s.ownedSub then watchHandler now s else s
  | Ev.watchOwnedErr => if s.ownedSub then watchHandler now s else s
  | Ev.watchAssigned => if s.assignedSub then watchHandler now s else s
  | Ev.watchAssignedErr => if s.assignedSub then watchHandler now s else s
  | Ev.debounceFire => if s.debounce = some now then debounceCallback now s else s
  | Ev.keepAliveTick => if s.keepAlive then keepAliveCallback now s else s
  | Ev.transportClose => teardown s

/-- Run a list of timestamped events through the event loop. -/
def runEvents (tr : List (Nat × Ev)) (s : SessionState) : SessionState :=
  match tr with
  | [] => s
  | (now, e) :: rest => runEvents rest (step now e s)

/-- The synchronous establishment block after successful verification
(lines 40–89): local flags initialised, both watches subscribed,
`started = true`, `ready` sent, keep-alive interval started. The block
runs to completion before any callback can be dispatched (Node's
single-threaded event loop). -/
def activate : SessionState :=
  let s0 : SessionState :=
    { started := false, debounce := none, keepAlive := false,
      ownedSub := false, assignedSub := false, resOpen := true, out := [] }
  let s1 := { s0 with ownedSub := true }
  let s2 := { s1 with assignedSub := true }
  let s3 := { s2 with started := true }
  let s4 := send Frame.ready s3
  { s4 with keepAlive := true }

/-! ### Establishment path

`todosStream(req, res)` up to the point where the stream is (or is not)
opened. The express request is abstracted to the data the handler
reads: the `token` query parameter, the session cookie (as extracted by
`readSessionCookie`), and the `Origin` header. The firebase-admin
verifiers are external collaborators, abstracted as functions returning
the decoded uid or `none` (a rejection, which in the source is a thrown
error caught by the `catch` block). -/

/-- The response, as observable by the establishment-time caller:
status code, headers set, the JSON error body if any (the handler only
ever writes bodies of the shape `"error": message`, so the body is
modelled by the message string), whether stream headers were flushed,
and the frames written. -/
structure EstablishOutcome where
  status : Nat
  headers : List (String × String)
  errorBody : Option String
  streamed : Bool
  frames : List Frame
  deriving DecidableEq, Repr

/-- The CORS gate (lines 23–27): echo the request origin and add
`Vary: Origin` exactly when the origin is one of the two allow-listed
frontend origins; otherwise set neither header. -/
def corsHeaders (origin : Option String) : List (String × String) :=
  match origin with
  | some o =>
    if o = "https://collab-todo-66eb2.web.app" ∨
       o = "https://collab-todo-66eb2.firebaseapp.com" then
      [("Access-Control-Allow-Origin", o), ("Vary", "Origin")]
    else []
  | none => []

/-- The stream headers set on success (lines 30–33). -/
def streamHeaders : List (String × String) :=
  [("Content-Type", "text/event-stream"),
   ("Cache-Control", "no-cache, no-transform"),
   ("Connection", "keep-alive"),
   ("X-Accel-Buffering", "no")]

/-- JavaScript truthiness of a nullable string: `null` and the empty
string are falsy (`!tokenParam` in the source is true for both). -/
def truthy (o : Option String) : Bool :=
  match o with
  | some s => !(s = "")
  | none => false

/-- The `todosStream` establishment path (lines 7–34 and 83–84, 99–101):
no (truthy) credential at all gives the 401 `Missing session` error;
otherwise the token (preferred, via the `tokenParam ? … : …` ternary)
or the cookie is verified, a verifier rejection gives the 401
`Invalid or expired token` error, and success flushes the CORS and
stream headers and sends the `ready` frame. -/
def todosStream (tokenParam sessionCookie : Option String)
    (verifyIdToken verifySessionCookie : String → Option String)
    (origin : Option String) : EstablishOutcome :=
  if !(truthy tokenParam) && !(truthy sessionCookie) then
    { status := 401, headers := [], errorBody := some "Missing session",
      streamed := false, frames := [] }
  else
    match (if truthy tokenParam then verifyIdToken (tokenParam.getD "")
           else verifySessionCookie (sessionCookie.getD "")) with
    | none =>
      { status := 401, headers := [], errorBody := some "Invalid or expired token",
        streamed := false, frames := [] }
    | some _ =>
      { status := 200, headers := corsHeaders origin ++ streamHeaders,
        errorBody := none, streamed := true, frames := [Frame.ready] }

/-! ### Basic lemmas about the session state machine -/

/-- The watch handler never writes a frame (it only re-arms the
debounce timer). -/
lemma watchHandler_out (now : Nat) (s : SessionState) :
    (watchHandler now s).out = s.out := by
  unfold watchHandler scheduleEmit
  split_ifs <;> rfl

/-- Every dispatch only appends to the transport output. -/
lemma step_out_append (now : Nat) (e : Ev) (s : SessionState) :
    ∃ l, (step now e s).out = s.out ++ l := by
  cases e with
  | watchOwned | watchOwnedErr | watchAssigned | watchAssignedErr =>
    refine ⟨[], ?_⟩
    simp only [step]
    split <;> simp [watchHandler_out]
  | debounceFire =>
    simp only [step]
    split
    · exact ⟨[Frame.todosChanged now], rfl⟩
    · exact ⟨[], by simp⟩
  | keepAliveTick =>
    simp only [step, keepAliveCallback, sendComment]
    split
    · split
      · exact ⟨[], by simp⟩
      · exact ⟨[Frame.keepAliveComment now], rfl⟩
    · exact ⟨[], by simp⟩
  | transportClose => exact ⟨[], by simp [step, teardown]⟩

/-- Running any event list only appends to the transport output. -/
lemma runEvents_out_append (tr : List (Nat × Ev)) (s : SessionState) :
    ∃ l, (runEvents tr s).out = s.out ++ l := by
  induction tr generalizing s with
  | nil => exact ⟨[], by simp [runEvents]⟩
  | cons p rest ih =>
    obtain ⟨now, e⟩ := p
    obtain ⟨l1, h1⟩ := step_out_append now e s
    obtain ⟨l2, h2⟩ := ih (step now e s)
    exact ⟨l1 ++ l2, by simp [runEvents, h2, h1]⟩

/-- A closed session (`started = false`, no pending debounce timer)
stays closed and writes nothing on any dispatch. -/
lemma step_closed (now : Nat) (e : Ev) (s : SessionState)
    (h1 : s.started = false) (h2 : s.debounce = none) :
    (step now e s).out = s.out ∧ (step now e s).started = false ∧
      (step now e s).debounce = none := by
  cases e with
  | transportClose => exact ⟨rfl, rfl, rfl⟩
  | _ =>
    simp_all [step, watchHandler, scheduleEmit, debounceCallback,
      keepAliveCallback, sendComment, send, teardown]

/-- A closed session writes nothing over any whole event list. -/
lemma runEvents_closed (tr : List (Nat × Ev)) (s : SessionState)
    (h1 : s.started = false) (h2 : s.debounce = none) :
    (runEvents tr s).out = s.out := by
  induction tr generalizing s with
  | nil => rfl
  | cons p rest ih =>
    obtain ⟨now, e⟩ := p
    obtain ⟨ho, hs, hd⟩ := step_closed now e s h1 h2
    simp [runEvents, ih (step now e s) hs hd, ho]

/-! ### Claims -/

/-- Claim C1: once the transport-close handler (teardown) has run, no
further frame of any kind is written to the transport, whatever events
— including debounce fires and keep-alive ticks that were pending at
teardown time — are dispatched afterwards. -/
theorem c1_post_teardown_silence (s : SessionState) (now : Nat)
    (tr : List (Nat × Ev)) :
    (runEvents tr (step now Ev.transportClose s)).out =
      (step now Ev.transportClose s).out := by
  have h : step now Ev.transportClose s = teardown s := rfl
  rw [h]
  exact runEvents_closed tr (teardown s) rfl rfl

/-- Claim C4: for every session that reaches the active state, the
first frame emitted on the stream is always `ready` — whatever events
the event loop dispatches afterwards — so no `todos_changed` frame can
precede it. -/
theorem c4_first_frame_ready (tr : List (Nat × Ev)) :
    ∃ rest, (runEvents tr activate).out = Frame.ready :: rest := by
  obtain ⟨l, h⟩ := runEvents_out_append tr activate
  exact ⟨l, by simpa [activate, send] using h⟩

/-- Claim C7: teardown is idempotent — the close handler run twice
yields the same end state as run once (closed, timers cleared, both
subscriptions cancelled, transport ended), writing nothing either
time; cancellation primitives are no-ops on repetition, so the second
run raises no error. -/
theorem c7_teardown_idempotent (s : SessionState) (n1 n2 : Nat) :
    step n2 Ev.transportClose (step n1 Ev.transportClose s) =
        step n1 Ev.transportClose s ∧
      teardown (teardown s) = teardown s ∧
      (teardown s).started = false ∧ (teardown s).debounce = none ∧
      (teardown s).keepAlive = false ∧ (teardown s).ownedSub = false ∧
      (teardown s).assignedSub = false ∧ (teardown s).resOpen = false ∧
      (teardown s).out = s.out := by
  refine ⟨rfl, rfl, rfl, rfl, rfl, rfl, rfl, rfl, rfl⟩

/-- Modelled from the spec: the transport write-failure path. `send`
performs no failure check of its own, and in the Node runtime a frame
write failing because the client is gone surfaces as the request's
close event — "treated as equivalent to a disconnect" — which
dispatches the registered transport-close handler. -/
def writeFailure (now : Nat) (s : SessionState) : SessionState :=
  step now Ev.transportClose s

/-- Claim C8: a transport write failure triggers full teardown: the
session transitions to closed, the debounce and keep-alive timers are
cancelled, both watch subscriptions are cancelled, and the transport
is closed. -/
theorem c8_write_failure_teardown (now : Nat) (s : SessionState) :
    writeFailure now s = teardown s ∧
      (writeFailure now s).started = false ∧
      (writeFailure now s).debounce = none ∧
      (writeFailure now s).keepAlive = false ∧
      (writeFailure now s).ownedSub = false ∧
      (writeFailure now s).assignedSub = false ∧
      (writeFailure now s).resOpen = false := by
  refine ⟨rfl, rfl, rfl, rfl, rfl, rfl, rfl⟩

/-- A session state that is no longer active but still has a pending
debounce timer (as can be posed to the fired callback directly, since
the callback body itself performs no liveness check). -/
def c2ClosedPendingState : SessionState :=
  { started := false, debounce := some 300, keepAlive := false,
    ownedSub := false, assignedSub := false, resOpen := false, out := [] }

/-- Claim C2 is false as stated: when the pending debounce timer fires
on a session that is not active, a `todos_changed` frame is still
emitted — the fired callback performs no `started` check of its own. -/
theorem c2_counterexample :
    c2ClosedPendingState.started = false ∧
      (step 300 Ev.debounceFire c2ClosedPendingState).out =
        c2ClosedPendingState.out ++ [Frame.todosChanged 300] :=
  ⟨rfl, rfl⟩

/-- Claim C2 (amended): the watch-delivery handler and the keep-alive
tick check `started` at fire time, but the debounce timer's callback
does not — it emits `todos_changed` unconditionally whenever it fires.
Post-teardown silence on the debounce path instead relies on teardown
clearing the pending timer. -/
theorem c2_emission_gating (now : Nat) (s : SessionState)
    (h : s.started = false) :
    watchHandler now s = s ∧
      keepAliveCallback now s = s ∧
      (debounceCallback now s).out = s.out ++ [Frame.todosChanged now] ∧
      (teardown s).debounce = none := by
  refine ⟨?_, ?_, rfl, rfl⟩ <;> simp [watchHandler, keepAliveCallback, h]

/-- Witness for the amended claim C2 at a concrete closed state. -/
theorem c2_emission_gating_witness :
    watchHandler 0 c2ClosedPendingState = c2ClosedPendingState ∧
      keepAliveCallback 0 c2ClosedPendingState = c2ClosedPendingState ∧
      (debounceCallback 0 c2ClosedPendingState).out =
        c2ClosedPendingState.out ++ [Frame.todosChanged 0] ∧
      (teardown c2ClosedPendingState).debounce = none :=
  c2_emission_gating 0 c2ClosedPendingState rfl

/-- Claim C5: an establishment request with no (truthy) credential, or
whose credential fails verification, gets status 401 with a single
JSON error body, and no stream headers, no `ready` frame and no other
stream frame are ever emitted for it. -/
theorem c5_auth_gating (tokenParam sessionCookie : Option String)
    (verifyIdToken verifySessionCookie : String → Option String)
    (origin : Option String)
    (h : (truthy tokenParam = false ∧ truthy sessionCookie = false) ∨
         (truthy tokenParam = true ∧
           verifyIdToken (tokenParam.getD "") = none) ∨
         (truthy tokenParam = false ∧ truthy sessionCookie = true ∧
           verifySessionCookie (sessionCookie.getD "") = none)) :
    (todosStream tokenParam sessionCookie verifyIdToken verifySessionCookie
        origin).status = 401 ∧
      (∃ msg, (todosStream tokenParam sessionCookie verifyIdToken
        verifySessionCookie origin).errorBody = some msg) ∧
      (todosStream tokenParam sessionCookie verifyIdToken verifySessionCookie
        origin).streamed = false ∧
      (todosStream tokenParam sessionCookie verifyIdToken verifySessionCookie
        origin).headers = [] ∧
      (todosStream tokenParam sessionCookie verifyIdToken verifySessionCookie
        origin).frames = [] := by
  rcases h with ⟨h1, h2⟩ | ⟨h1, h2⟩ | ⟨h1, h2, h3⟩
  · simp [todosStream, h1, h2]
  · simp [todosStream, h1, h2]
  · simp [todosStream, h1, h2, h3]

/-- Witness for claim C5 at a concrete credential-free request. -/
theorem c5_auth_gating_witness :
    (todosStream none none (fun _ => none) (fun _ => none) none).status =
        401 ∧
      (∃ msg, (todosStream none none (fun _ => none) (fun _ => none)
        none).errorBody = some msg) ∧
      (todosStream none none (fun _ => none) (fun _ => none)
        none).streamed = false ∧
      (todosStream none none (fun _ => none) (fun _ => none)
        none).headers = [] ∧
      (todosStream none none (fun _ => none) (fun _ => none)
        none).frames = [] :=
  c5_auth_gating none none (fun _ => none) (fun _ => none) none
    (Or.inl ⟨rfl, rfl⟩)

/-- Claim C6 is false as stated: the invalid-credential response body
differs from the missing-credential response body (`Invalid or expired
token` versus `Missing session`), so the two failures are not
indistinguishable. -/
theorem c6_counterexample :
    (todosStream (some "tok") none (fun _ => none) (fun _ => none)
        none).errorBody ≠
      (todosStream none none (fun _ => none) (fun _ => none)
        none).errorBody := by
  decide

/-- Claim C6 (amended): an invalid-credential failure carries the same
401 status as a missing-credential failure, and its body is one fixed
message — the same for a rejected token and a rejected cookie, and
independent of the credential and of why the verifier rejected it (no
expired-versus-malformed leak) — but the two failure kinds are
distinguishable by body (`Missing session` vs `Invalid or expired
token`). -/
theorem c6_invalid_vs_missing :
    (∀ (tk ck : Option String) (vId vCk : String → Option String)
        (o : Option String), truthy tk = false → truthy ck = false →
      (todosStream tk ck vId vCk o).status = 401 ∧
        (todosStream tk ck vId vCk o).errorBody = some "Missing session") ∧
    (∀ (tk ck : Option String) (vId vCk : String → Option String)
        (o : Option String), truthy tk = true →
        vId (tk.getD "") = none →
      (todosStream tk ck vId vCk o).status = 401 ∧
        (todosStream tk ck vId vCk o).errorBody =
          some "Invalid or expired token") ∧
    (∀ (tk ck : Option String) (vId vCk : String → Option String)
        (o : Option String), truthy tk = false → truthy ck = true →
        vCk (ck.getD "") = none →
      (todosStream tk ck vId vCk o).status = 401 ∧
        (todosStream tk ck vId vCk o).errorBody =
          some "Invalid or expired token") ∧
    "Missing session" ≠ "Invalid or expired token" := by
  refine ⟨?_, ?_, ?_, by decide⟩
  · intro tk ck vId vCk o h1 h2
    simp [todosStream, h1, h2]
  · intro tk ck vId vCk o h1 h2
    simp [todosStream, h1, h2]
  · intro tk ck vId vCk o h1 h2 h3
    simp [todosStream, h1, h2, h3]

/-- Witness for the amended claim C6 at concrete requests. -/
theorem c6_invalid_vs_missing_witness :
    (todosStream none none (fun _ => none) (fun _ => some "u")
        none).errorBody = some "Missing session" ∧
      (todosStream (some "t") (some "c") (fun _ => none)
          (fun _ => some "u") none).errorBody =
        some "Invalid or expired token" ∧
      (todosStream none (some "c") (fun _ => some "u") (fun _ => none)
          none).errorBody = some "Invalid or expired token" :=
  ⟨(c6_invalid_vs_missing.1 none none (fun _ => none) (fun _ => some "u")
      none rfl rfl).2,
   (c6_invalid_vs_missing.2.1 (some "t") (some "c") (fun _ => none)
      (fun _ => some "u") none (by decide) rfl).2,
   (c6_invalid_vs_missing.2.2.1 none (some "c") (fun _ => some "u")
      (fun _ => none) none rfl (by decide) rfl).2⟩

/-- The two allow-listed frontend origins of the CORS gate. -/
def allowedOrigins : List String :=
  ["https://collab-todo-66eb2.web.app",
   "https://collab-todo-66eb2.firebaseapp.com"]

/-- A successful establishment (one that opened the stream) carries
exactly the CORS headers for its origin followed by the stream
headers. -/
lemma streamed_headers (tk ck : Option String)
    (vId vCk : String → Option String) (origin : Option String)
    (h : (todosStream tk ck vId vCk origin).streamed = true) :
    (todosStream tk ck vId vCk origin).headers =
      corsHeaders origin ++ streamHeaders := by
  unfold todosStream at h ⊢
  by_cases hc : (!(truthy tk) && !(truthy ck)) = true
  · rw [if_pos hc] at h
    exact absurd h (by simp)
  · rw [if_neg hc] at h ⊢
    rcases hd : (if truthy tk then vId (tk.getD "")
        else vCk (ck.getD "")) with _ | u
    · rw [hd] at h
      exact absurd h (by simp)
    · rfl

/-- Claim C9: for a successfully authenticated establishment request,
an allow-listed Origin is echoed back exactly (never a wildcard)
together with `Vary: Origin`, while an absent or unlisted Origin gets
neither header. -/
theorem c9_origin_echo (tk ck : Option String)
    (vId vCk : String → Option String) (origin : Option String)
    (hauth : (todosStream tk ck vId vCk origin).streamed = true) :
    (∀ o, origin = some o → o ∈ allowedOrigins →
      o ≠ "*" ∧
        (todosStream tk ck vId vCk origin).headers.filter
            (fun p => p.1 = "Access-Control-Allow-Origin") =
          [("Access-Control-Allow-Origin", o)] ∧
        (todosStream tk ck vId vCk origin).headers.filter
            (fun p => p.1 = "Vary") = [("Vary", "Origin")]) ∧
    ((origin = none ∨ ∃ o, origin = some o ∧ o ∉ allowedOrigins) →
      (todosStream tk ck vId vCk origin).headers.filter
          (fun p => p.1 = "Access-Control-Allow-Origin") = [] ∧
        (todosStream tk ck vId vCk origin).headers.filter
          (fun p => p.1 = "Vary") = []) := by
  rw [streamed_headers tk ck vId vCk origin hauth]
  constructor
  · rintro o rfl hmem
    rcases (by simpa [allowedOrigins] using hmem : _ ∨ _) with rfl | rfl <;>
      refine ⟨by decide, by decide, by decide⟩
  · rintro (rfl | ⟨o, rfl, hmem⟩)
    · exact ⟨by decide, by decide⟩
    · have h1 : ¬(o = "https://collab-todo-66eb2.web.app" ∨
          o = "https://collab-todo-66eb2.firebaseapp.com") := by
        simpa [allowedOrigins] using hmem
      simp [corsHeaders, h1, streamHeaders]

/-- Witness for claim C9: an authenticated request from the first
allow-listed origin, and one with no origin at all. -/
theorem c9_origin_echo_witness :
    ((todosStream (some "t") none (fun _ => some "u") (fun _ => none)
        (some "https://collab-todo-66eb2.web.app")).headers.filter
        (fun p => p.1 = "Access-Control-Allow-Origin") =
      [("Access-Control-Allow-Origin",
        "https://collab-todo-66eb2.web.app")]) ∧
      ((todosStream (some "t") none (fun _ => some "u") (fun _ => none)
          none).headers.filter
          (fun p => p.1 = "Access-Control-Allow-Origin") = []) :=
  ⟨((c9_origin_echo (some "t") none (fun _ => some "u") (fun _ => none)
      (some "https://collab-todo-66eb2.web.app") (by decide)).1
      "https://collab-todo-66eb2.web.app" rfl (by decide)).2.1,
   ((c9_origin_echo (some "t") none (fun _ => some "u") (fun _ => none)
      none (by decide)).2 (Or.inl rfl)).1⟩

/-- Claim C10: when both a bearer token and a session cookie are
supplied, the cookie is never consulted — the outcome is identical for
any cookie value and any cookie verifier — and a rejected token yields
the 401 unauthenticated error even when the accompanying cookie is
valid. -/
theorem c10_token_precedence (t : String) (ht : t ≠ "")
    (ck ck' : Option String) (vId vCk vCk' : String → Option String)
    (o : Option String) :
    todosStream (some t) ck vId vCk o =
        todosStream (some t) ck' vId vCk' o ∧
      (vId t = none →
        (todosStream (some t) ck vId vCk o).status = 401 ∧
          (todosStream (some t) ck vId vCk o).streamed = false ∧
          (todosStream (some t) ck vId vCk o).errorBody =
            some "Invalid or expired token") := by
  have htr : truthy (some t) = true := by simp [truthy, ht]
  constructor
  · unfold todosStream
    simp [htr]
  · intro hv
    simp [todosStream, htr, hv]

/-- Witness for claim C10: a rejected token alongside a cookie that a
verifier would accept still produces the 401 error. -/
theorem c10_token_precedence_witness :
    todosStream (some "tok") (some "c") (fun _ => none)
          (fun _ => some "u") none =
        todosStream (some "tok") none (fun _ => none) (fun _ => none)
          none ∧
      (todosStream (some "tok") (some "c") (fun _ => none)
          (fun _ => some "u") none).status = 401 := by
  have h := c10_token_precedence "tok" (by decide) (some "c") none
    (fun _ => none) (fun _ => some "u") (fun _ => none) none
  exact ⟨h.1, (h.2 rfl).1⟩

/-! ### Well-formed event-loop traces and the debounce burst claim -/

/-- Is a frame a `todos_changed` frame? -/
def isTodosChangedFrame : Frame → Bool
  | Frame.todosChanged _ => true
  | _ => false

/-- The `todos_changed` frames of an output list, in order. -/
def filterTodos (l : List Frame) : List Frame :=
  l.filter isTodosChangedFrame

/-- The delivery times of the watch events of a trace, in order. -/
def watchTimes (tr : List (Nat × Ev)) : List Nat :=
  (tr.filter (fun p => (p.2).isWatch)).map Prod.fst

/-- The last element of `c :: l`. -/
def lastD (c : Nat) : List Nat → Nat
  | [] => c
  | x :: xs => lastD x xs

/-- Well-formed event-loop traces from time `t0` in state `s`: times
are nondecreasing, no event is dispatched strictly past a pending
debounce deadline (the runtime fires due timers on time), and a
`debounceFire` event occurs exactly when the one-shot timer is pending
and due. -/
def wfFrom (t0 : Nat) (s : SessionState) : List (Nat × Ev) → Bool
  | [] => true
  | (now, e) :: rest =>
    decide (t0 ≤ now) &&
      (match s.debounce with
       | some T => decide (now ≤ T)
       | none => true) &&
      (match e with
       | Ev.debounceFire => decide (s.debounce = some now)
       | _ => true) &&
      wfFrom now (step now e s) rest

/-- Liveness of a session's callback sources: active, both watch
subscriptions live. -/
def live (s : SessionState) : Prop :=
  s.started = true ∧ s.ownedSub = true ∧ s.assignedSub = true

/-- On a live session, a watch delivery (success or error, either
subscription) just re-arms the debounce timer for the full window. -/
lemma step_watch_live (now : Nat) (e : Ev) (s : SessionState)
    (h : live s) (hw : e.isWatch = true) :
    step now e s = { s with debounce := some (now + 250) } := by
  obtain ⟨h1, h2, h3⟩ := h
  cases e <;> simp_all [Ev.isWatch, step, watchHandler, scheduleEmit]

/-- Non-close dispatches preserve liveness. -/
lemma step_live (now : Nat) (e : Ev) (s : SessionState)
    (h : live s) (hne : e ≠ Ev.transportClose) : live (step now e s) := by
  obtain ⟨h1, h2, h3⟩ := h
  cases e <;>
    simp_all [step, watchHandler, scheduleEmit, keepAliveCallback,
      sendComment, debounceCallback, send, live] <;>
    split_ifs <;> simp_all

/-- A keep-alive tick either does nothing or appends only the comment
frame. -/
lemma step_tick_cases (now : Nat) (s : SessionState) :
    step now Ev.keepAliveTick s = s ∨
      step now Ev.keepAliveTick s =
        { s with out := s.out ++ [Frame.keepAliveComment now] } := by
  simp only [step, keepAliveCallback, sendComment]
  split_ifs <;> first | (left; rfl) | (right; rfl)

/-- All dispatch times of a well-formed trace are bounded below by its
start time. -/
lemma wfFrom_time_lb (tr : List (Nat × Ev)) (t0 : Nat) (s : SessionState)
    (hwf : wfFrom t0 s tr = true) : ∀ p ∈ tr, t0 ≤ p.1 := by
  induction tr generalizing t0 s with
  | nil => intro p hp; cases hp
  | cons q rest ih =>
    obtain ⟨now, e⟩ := q
    simp only [wfFrom, Bool.and_eq_true, decide_eq_true_eq] at hwf
    intro p hp
    rcases List.mem_cons.mp hp with rfl | hp
    · exact hwf.1.1.1
    · exact le_trans hwf.1.1.1 (ih now (step now e s) hwf.2 p hp)

/-- Every watch time of a trace is the time of some watch event of the
trace. -/
lemma watchTimes_mem (tr : List (Nat × Ev)) (x : Nat)
    (hx : x ∈ watchTimes tr) :
    ∃ p ∈ tr, p.1 = x ∧ (p.2).isWatch = true := by
  simp only [watchTimes, List.mem_map, List.mem_filter] at hx
  obtain ⟨p, ⟨hp, hw⟩, hpx⟩ := hx
  exact ⟨p, hp, hpx, hw⟩

/-- The value `lastD c l` is an element of `c :: l`. -/
lemma lastD_mem (l : List Nat) (c : Nat) : lastD c l ∈ c :: l := by
  induction l generalizing c with
  | nil => simp [lastD]
  | cons x xs ih =>
    rcases List.mem_cons.mp (ih x) with h | h
    · simp [lastD, h]
    · simp [lastD, List.mem_cons.mpr (Or.inr h)]

/-- A trace with no watch times has no watch events. -/
lemma watchTimes_eq_nil (tr : List (Nat × Ev))
    (h : watchTimes tr = []) : ∀ p ∈ tr, (p.2).isWatch = false := by
  intro p hp
  by_contra hw
  have hmem : p.1 ∈ watchTimes tr := by
    simp only [watchTimes, List.mem_map]
    exact ⟨p, List.mem_filter.mpr ⟨hp, by simpa using hw⟩, rfl⟩
  simp [h] at hmem

/-- With no pending debounce timer and no watch deliveries (and no
close), a well-formed continuation emits no further `todos_changed`
frame. -/
lemma run_no_watch_no_pending (tr : List (Nat × Ev)) (t0 : Nat)
    (s : SessionState) (hwf : wfFrom t0 s tr = true)
    (hd : s.debounce = none)
    (hnw : ∀ p ∈ tr, (p.2).isWatch = false ∧ p.2 ≠ Ev.transportClose) :
    filterTodos (runEvents tr s).out = filterTodos s.out := by
  induction tr generalizing t0 s with
  | nil => rfl
  | cons q rest ih =>
    obtain ⟨now, e⟩ := q
    simp only [wfFrom, Bool.and_eq_true] at hwf
    obtain ⟨⟨⟨ht0, hpend⟩, hfire⟩, hwfrest⟩ := hwf
    have hq := hnw (now, e) (List.mem_cons_self _ _)
    have hnwr : ∀ p ∈ rest, (p.2).isWatch = false ∧ p.2 ≠ Ev.transportClose :=
      fun p hp => hnw p (List.mem_cons_of_mem _ hp)
    cases e with
    | watchOwned => simp [Ev.isWatch] at hq
    | watchOwnedErr => simp [Ev.isWatch] at hq
    | watchAssigned => simp [Ev.isWatch] at hq
    | watchAssignedErr => simp [Ev.isWatch] at hq
    | transportClose => exact absurd rfl hq.2
    | debounceFire =>
      have hf : s.debounce = some now := of_decide_eq_true hfire
      rw [hd] at hf
      exact absurd hf (by simp)
    | keepAliveTick =>
      have hrun : runEvents ((now, Ev.keepAliveTick) :: rest) s =
          runEvents rest (step now Ev.keepAliveTick s) := rfl
      rw [hrun]
      rcases step_tick_cases now s with hstep | hstep
      · rw [hstep] at hwfrest ⊢
        exact ih now s hwfrest hd hnwr
      · rw [hstep] at hwfrest ⊢
        have := ih now _ hwfrest hd hnwr
        rw [this]
        simp [filterTodos, List.filter_append, isTodosChangedFrame]

/-- With a pending debounce timer armed for `T`, no further watch
deliveries (and no close), and the trace extending strictly past `T`,
exactly one further `todos_changed` frame is emitted, timestamped
`T`. -/
lemma run_pending_no_watch (tr : List (Nat × Ev)) (t0 T : Nat)
    (s : SessionState) (hwf : wfFrom t0 s tr = true)
    (hd : s.debounce = some T)
    (hnw : ∀ p ∈ tr, (p.2).isWatch = false ∧ p.2 ≠ Ev.transportClose)
    (hpast : ∃ p ∈ tr, T < p.1) :
    filterTodos (runEvents tr s).out =
      filterTodos s.out ++ [Frame.todosChanged T] := by
  induction tr generalizing t0 s with
  | nil =>
    obtain ⟨p, hp, _⟩ := hpast
    cases hp
  | cons q rest ih =>
    obtain ⟨now, e⟩ := q
    simp only [wfFrom, Bool.and_eq_true] at hwf
    obtain ⟨⟨⟨ht0, hpend⟩, hfire⟩, hwfrest⟩ := hwf
    have hq := hnw (now, e) (List.mem_cons_self _ _)
    have hnwr : ∀ p ∈ rest, (p.2).isWatch = false ∧ p.2 ≠ Ev.transportClose :=
      fun p hp => hnw p (List.mem_cons_of_mem _ hp)
    cases e with
    | watchOwned => simp [Ev.isWatch] at hq
    | watchOwnedErr => simp [Ev.isWatch] at hq
    | watchAssigned => simp [Ev.isWatch] at hq
    | watchAssignedErr => simp [Ev.isWatch] at hq
    | transportClose => exact absurd rfl hq.2
    | debounceFire =>
      have hf : s.debounce = some now := of_decide_eq_true hfire
      have hTn : now = T := by
        rw [hd] at hf
        exact (Option.some_inj.mp hf).symm
      subst hTn
      have hstep : step now Ev.debounceFire s = debounceCallback now s := by
        simp [step, hf]
      have hrun : runEvents ((now, Ev.debounceFire) :: rest) s =
          runEvents rest (step now Ev.debounceFire s) := rfl
      rw [hrun, hstep]
      rw [hstep] at hwfrest
      have hrest := run_no_watch_no_pending rest now (debounceCallback now s)
        hwfrest rfl hnwr
      rw [hrest]
      simp [debounceCallback, send, filterTodos, List.filter_append,
        isTodosChangedFrame]
    | keepAliveTick =>
      have hnle : now ≤ T := by
        rw [hd] at hpend
        exact of_decide_eq_true hpend
      have hpast' : ∃ p ∈ rest, T < p.1 := by
        obtain ⟨p, hp, hT⟩ := hpast
        rcases List.mem_cons.mp hp with rfl | hp'
        · exact absurd hT (by omega)
        · exact ⟨p, hp', hT⟩
      have hrun : runEvents ((now, Ev.keepAliveTick) :: rest) s =
          runEvents rest (step now Ev.keepAliveTick s) := rfl
      rw [hrun]
      rcases step_tick_cases now s with hstep | hstep
      · rw [hstep] at hwfrest ⊢
        exact ih now s hwfrest hd hnwr hpast'
      · rw [hstep] at hwfrest ⊢
        have := ih now _ hwfrest hd hnwr hpast'
        rw [this]
        simp [filterTodos, List.filter_append, isTodosChangedFrame]

/-- A watch event contributes its time to `watchTimes`. -/
lemma watchTimes_cons_watch (now : Nat) (e : Ev) (rest : List (Nat × Ev))
    (hw : e.isWatch = true) :
    watchTimes ((now, e) :: rest) = now :: watchTimes rest := by
  simp [watchTimes, hw]

/-- A non-watch event contributes nothing to `watchTimes`. -/
lemma watchTimes_cons_other (now : Nat) (e : Ev) (rest : List (Nat × Ev))
    (hw : e.isWatch = false) :
    watchTimes ((now, e) :: rest) = watchTimes rest := by
  simp [watchTimes, hw]

/-- Burst phase with the timer already armed from the previous delivery
at `tprev`: if every remaining watch delivery comes within one window
of its predecessor, no close occurs, and the trace extends strictly
past the final deadline, then exactly one further `todos_changed` is
emitted, timestamped at (final delivery time + 250). -/
lemma run_burst_pending (tr : List (Nat × Ev)) (t0 tprev : Nat)
    (s : SessionState) (hwf : wfFrom t0 s tr = true) (hlive : live s)
    (hd : s.debounce = some (tprev + 250)) (htprev : tprev ≤ t0)
    (hnc : ∀ p ∈ tr, p.2 ≠ Ev.transportClose)
    (hchain : List.Chain' (fun a b => b < a + 250) (tprev :: watchTimes tr))
    (hpast : ∃ p ∈ tr, lastD tprev (watchTimes tr) + 250 < p.1) :
    filterTodos (runEvents tr s).out =
      filterTodos s.out ++
        [Frame.todosChanged (lastD tprev (watchTimes tr) + 250)] := by
  induction tr generalizing t0 tprev s with
  | nil =>
    obtain ⟨p, hp, _⟩ := hpast
    cases hp
  | cons q rest ih =>
    obtain ⟨now, e⟩ := q
    simp only [wfFrom, Bool.and_eq_true] at hwf
    obtain ⟨⟨⟨ht0, hpend⟩, hfire⟩, hwfrest⟩ := hwf
    have ht0' : t0 ≤ now := of_decide_eq_true ht0
    have hncr : ∀ p ∈ rest, p.2 ≠ Ev.transportClose :=
      fun p hp => hnc p (List.mem_cons_of_mem _ hp)
    have hbound : ∀ p ∈ rest, now ≤ p.1 := wfFrom_time_lb rest now _ hwfrest
    by_cases hw : e.isWatch = true
    · have hstep : step now e s = { s with debounce := some (now + 250) } :=
        step_watch_live now e s hlive hw
      rw [watchTimes_cons_watch now e rest hw] at hchain hpast ⊢
      simp only [lastD] at hpast ⊢
      have hge : now ≤ lastD now (watchTimes rest) := by
        rcases List.mem_cons.mp (lastD_mem (watchTimes rest) now) with heq | hmem'
        · omega
        · obtain ⟨p', hp', hpx, _⟩ := watchTimes_mem rest _ hmem'
          have := hbound p' hp'
          omega
      have hpast' : ∃ p ∈ rest, lastD now (watchTimes rest) + 250 < p.1 := by
        obtain ⟨p, hp, hT⟩ := hpast
        rcases List.mem_cons.mp hp with rfl | hp'
        · exact absurd hT (by omega)
        · exact ⟨p, hp', hT⟩
      rw [show runEvents ((now, e) :: rest) s =
          runEvents rest (step now e s) from rfl, hstep]
      rw [hstep] at hwfrest
      exact ih now now { s with debounce := some (now + 250) } hwfrest
        hlive rfl (le_refl now) hncr hchain.tail hpast'
    · have hw' : e.isWatch = false := by
        cases hb : e.isWatch
        · rfl
        · exact absurd hb hw
      cases e with
      | watchOwned => exact absurd rfl hw
      | watchOwnedErr => exact absurd rfl hw
      | watchAssigned => exact absurd rfl hw
      | watchAssignedErr => exact absurd rfl hw
      | transportClose =>
        exact absurd rfl (hnc (now, Ev.transportClose) (List.mem_cons_self _ _))
      | keepAliveTick =>
        rw [watchTimes_cons_other now Ev.keepAliveTick rest rfl]
          at hchain hpast ⊢
        have hnle : now ≤ tprev + 250 := by
          rw [hd] at hpend
          exact of_decide_eq_true hpend
        have hge : tprev ≤ lastD tprev (watchTimes rest) := by
          rcases List.mem_cons.mp (lastD_mem (watchTimes rest) tprev)
            with heq | hmem'
          · omega
          · obtain ⟨p', hp'', hpx, _⟩ := watchTimes_mem rest _ hmem'
            have := hbound p' hp''
            omega
        have hpast' : ∃ p ∈ rest, lastD tprev (watchTimes rest) + 250 < p.1 := by
          obtain ⟨p, hp, hT⟩ := hpast
          rcases List.mem_cons.mp hp with rfl | hp'
          · exact absurd hT (by omega)
          · exact ⟨p, hp', hT⟩
        rcases step_tick_cases now s with hstep | hstep
        · rw [show runEvents ((now, Ev.keepAliveTick) :: rest) s =
              runEvents rest (step now Ev.keepAliveTick s) from rfl, hstep]
          rw [hstep] at hwfrest
          exact ih now tprev s hwfrest hlive hd (le_trans htprev ht0')
            hncr hchain hpast'
        · rw [show runEvents ((now, Ev.keepAliveTick) :: rest) s =
              runEvents rest (step now Ev.keepAliveTick s) from rfl, hstep]
          rw [hstep] at hwfrest
          have hrec := ih now tprev
            { s with out := s.out ++ [Frame.keepAliveComment now] }
            hwfrest hlive hd (le_trans htprev ht0') hncr hchain hpast'
          rw [hrec]
          simp [filterTodos, List.filter_append, isTodosChangedFrame]
      | debounceFire =>
        have hf : s.debounce = some now := of_decide_eq_true hfire
        have hTn : now = tprev + 250 := by
          rw [hd] at hf
          exact (Option.some_inj.mp hf).symm
        have hws : watchTimes rest = [] := by
          cases hwsc : watchTimes rest with
          | nil => rfl
          | cons x xs =>
            exfalso
            rw [watchTimes_cons_other now Ev.debounceFire rest rfl, hwsc]
              at hchain
            have hx : x < tprev + 250 := (List.chain'_cons.mp hchain).1
            obtain ⟨p', hp', hpx, _⟩ := watchTimes_mem rest x
              (by rw [hwsc]; exact List.mem_cons_self _ _)
            have := hbound p' hp'
            omega
        rw [watchTimes_cons_other now Ev.debounceFire rest rfl, hws]
        have hstep : step now Ev.debounceFire s = debounceCallback now s := by
          simp [step, hf]
        rw [show runEvents ((now, Ev.debounceFire) :: rest) s =
            runEvents rest (step now Ev.debounceFire s) from rfl, hstep]
        rw [hstep] at hwfrest
        have hnwr : ∀ p ∈ rest, (p.2).isWatch = false ∧
            p.2 ≠ Ev.transportClose :=
          fun p hp => ⟨watchTimes_eq_nil rest hws p hp, hncr p hp⟩
        have hrest := run_no_watch_no_pending rest now
          (debounceCallback now s) hwfrest rfl hnwr
        rw [hrest]
        simp [debounceCallback, send, filterTodos, List.filter_append,
          isTodosChangedFrame, lastD, hTn]

/-- Burst from a live state with no timer pending: K ≥ 1 watch
deliveries each within one window of the previous, no close, the trace
extending strictly past the final deadline — exactly one
`todos_changed` is emitted, timestamped at (last delivery + 250). -/
lemma run_burst_start (tr : List (Nat × Ev)) (t0 : Nat) (s : SessionState)
    (hwf : wfFrom t0 s tr = true) (hlive : live s) (hd : s.debounce = none)
    (hnc : ∀ p ∈ tr, p.2 ≠ Ev.transportClose)
    (hne : watchTimes tr ≠ [])
    (hchain : List.Chain' (fun a b => b < a + 250) (watchTimes tr))
    (hpast : ∃ p ∈ tr, lastD 0 (watchTimes tr) + 250 < p.1) :
    filterTodos (runEvents tr s).out =
      filterTodos s.out ++
        [Frame.todosChanged (lastD 0 (watchTimes tr) + 250)] := by
  induction tr generalizing t0 s with
  | nil => exact absurd rfl hne
  | cons q rest ih =>
    obtain ⟨now, e⟩ := q
    simp only [wfFrom, Bool.and_eq_true] at hwf
    obtain ⟨⟨⟨ht0, hpend⟩, hfire⟩, hwfrest⟩ := hwf
    have hncr : ∀ p ∈ rest, p.2 ≠ Ev.transportClose :=
      fun p hp => hnc p (List.mem_cons_of_mem _ hp)
    have hbound : ∀ p ∈ rest, now ≤ p.1 := wfFrom_time_lb rest now _ hwfrest
    by_cases hw : e.isWatch = true
    · have hstep : step now e s = { s with debounce := some (now + 250) } :=
        step_watch_live now e s hlive hw
      rw [watchTimes_cons_watch now e rest hw] at hchain hpast ⊢
      simp only [lastD] at hpast ⊢
      have hge : now ≤ lastD now (watchTimes rest) := by
        rcases List.mem_cons.mp (lastD_mem (watchTimes rest) now) with heq | hmem'
        · omega
        · obtain ⟨p', hp', hpx, _⟩ := watchTimes_mem rest _ hmem'
          have := hbound p' hp'
          omega
      have hpast' : ∃ p ∈ rest, lastD now (watchTimes rest) + 250 < p.1 := by
        obtain ⟨p, hp, hT⟩ := hpast
        rcases List.mem_cons.mp hp with rfl | hp'
        · exact absurd hT (by omega)
        · exact ⟨p, hp', hT⟩
      rw [show runEvents ((now, e) :: rest) s =
          runEvents rest (step now e s) from rfl, hstep]
      rw [hstep] at hwfrest
      exact run_burst_pending rest now now
        { s with debounce := some (now + 250) } hwfrest hlive rfl
        (le_refl now) hncr hchain hpast'
    · cases e with
      | watchOwned => exact absurd rfl hw
      | watchOwnedErr => exact absurd rfl hw
      | watchAssigned => exact absurd rfl hw
      | watchAssignedErr => exact absurd rfl hw
      | transportClose =>
        exact absurd rfl (hnc (now, Ev.transportClose) (List.mem_cons_self _ _))
      | debounceFire =>
        have hf : s.debounce = some now := of_decide_eq_true hfire
        rw [hd] at hf
        exact absurd hf (by simp)
      | keepAliveTick =>
        rw [watchTimes_cons_other now Ev.keepAliveTick rest rfl]
          at hchain hpast hne ⊢
        have hge0 : ∀ x ∈ watchTimes rest, now ≤ x := by
          intro x hx
          obtain ⟨p', hp', hpx, _⟩ := watchTimes_mem rest x hx
          have := hbound p' hp'
          omega
        have hpast' : ∃ p ∈ rest, lastD 0 (watchTimes rest) + 250 < p.1 := by
          obtain ⟨p, hp, hT⟩ := hpast
          rcases List.mem_cons.mp hp with rfl | hp'
          · exfalso
            cases hwsc : watchTimes rest with
            | nil => exact hne hwsc
            | cons x xs =>
              rw [hwsc] at hT
              simp only [lastD] at hT
              have hx : now ≤ x := hge0 x (by rw [hwsc]; exact List.mem_cons_self _ _)
              have hgeL : x ≤ lastD x xs ∨ lastD x xs ∈ xs := by
                rcases List.mem_cons.mp (lastD_mem xs x) with heq | hmem'
                · exact Or.inl (le_of_eq heq.symm)
                · exact Or.inr hmem'
              rcases hgeL with hgeL | hmemL
              · omega
              · have : now ≤ lastD x xs := hge0 _ (by rw [hwsc]; exact List.mem_cons_of_mem _ hmemL)
                omega
          · exact ⟨p, hp', hT⟩
        rcases step_tick_cases now s with hstep | hstep
        · rw [show runEvents ((now, Ev.keepAliveTick) :: rest) s =
              runEvents rest (step now Ev.keepAliveTick s) from rfl, hstep]
          rw [hstep] at hwfrest
          exact ih now s hwfrest hlive hd hncr hne hchain hpast'
        · rw [show runEvents ((now, Ev.keepAliveTick) :: rest) s =
              runEvents rest (step now Ev.keepAliveTick s) from rfl, hstep]
          rw [hstep] at hwfrest
          have hrec := ih now
            { s with out := s.out ++ [Frame.keepAliveComment now] }
            hwfrest hlive hd hncr hne hchain hpast'
          rw [hrec]
          simp [filterTodos, List.filter_append, isTodosChangedFrame]

/-- Claim C3: for an active session and any well-formed event-loop
trace whose K ≥ 1 watch-change deliveries each arrive within one
debounce window of the previous one (trailing-edge re-arm), with the
session never closed and the trace extending strictly past the final
deadline, exactly one `todos_changed` frame is emitted in the whole
trace, and it is timestamped at (last delivery time + 250), never
earlier. -/
theorem c3_debounce_burst (tr : List (Nat × Ev)) (t0 : Nat)
    (hwf : wfFrom t0 activate tr = true)
    (hnc : ∀ p ∈ tr, p.2 ≠ Ev.transportClose)
    (hne : watchTimes tr ≠ [])
    (hchain : List.Chain' (fun a b => b < a + 250) (watchTimes tr))
    (hpast : ∃ p ∈ tr, lastD 0 (watchTimes tr) + 250 < p.1) :
    filterTodos (runEvents tr activate).out =
      [Frame.todosChanged (lastD 0 (watchTimes tr) + 250)] := by
  have h := run_burst_start tr t0 activate hwf ⟨rfl, rfl, rfl⟩ rfl hnc hne
    hchain hpast
  simpa [activate, send, filterTodos, isTodosChangedFrame] using h

/-- Witness for claim C3: two deliveries 100ms apart, the timer firing
at the second delivery plus the window, a later keep-alive tick. -/
theorem c3_debounce_burst_witness :
    filterTodos (runEvents
      [(1000, Ev.watchOwned), (1100, Ev.watchAssigned),
       (1350, Ev.debounceFire), (1400, Ev.keepAliveTick)] activate).out =
      [Frame.todosChanged 1350] := by
  have h := c3_debounce_burst
    [(1000, Ev.watchOwned), (1100, Ev.watchAssigned),
     (1350, Ev.debounceFire), (1400, Ev.keepAliveTick)]
    0 (by decide) (by decide) (by decide)
    (by simp [watchTimes, Ev.isWatch, List.chain'_cons]) (by decide)
  exact h

end CollabTodo
